import Mathlib

/-!
Shallow embedding of the structured JSON logging subsystem of the
`go_infr_message` repository, together with proofs about it.

The embedded code comes from two places:
  * `src/v1/logger/logger.go` — the v1 logger: `JSONFormatter.Format`
    (the `fmt.Sprintf`-template variant that always emits a `line` key and
    upper-cases the level), `escapeString`, `buildErrorFilename`,
    `ErrorHook` and `NewLogger`;
  * the registry variant (`package logger` with the global `loggers` map):
    `InitializeLogger`, `InitializeDefaultLogger`, `GetLogger`, `newLogger`.

Machine integers of the source are modelled as `Nat`; file-system effects
(directory creation, file opening) are modelled as explicit state plus
environment flags saying whether each operation succeeds; `panic` is
modelled as `none`/`Option`.
-/

/-- Decimal digit character, `'0' + d` for `d ≤ 9` (clamped at `'9'`),
as produced by Go's `%d` verb one digit at a time. -/
def digitChar : Nat → Char
  | 0 => '0' | 1 => '1' | 2 => '2' | 3 => '3' | 4 => '4'
  | 5 => '5' | 6 => '6' | 7 => '7' | 8 => '8' | _ => '9'

/-- Fuel-driven decimal rendering; `fuel` bounds the number of
divisions by 10 that may still happen. -/
def natToCharsAux : Nat → Nat → List Char
  | 0, _ => []
  | fuel + 1, n =>
    if n < 10 then [digitChar n]
    else natToCharsAux fuel (n / 10) ++ [digitChar (n % 10)]

/-- Decimal rendering of a natural number, the embedding of `fmt.Sprintf`'s
`%d` for the non-negative ints this code passes it. -/
def natToChars (n : Nat) : List Char := natToCharsAux (n + 1) n

/-- Fuel irrelevance: any fuel larger than `n` gives the same digits. -/
theorem natToCharsAux_fuel (f1 : Nat) : ∀ f2 n, n < f1 → n < f2 →
    natToCharsAux f1 n = natToCharsAux f2 n := by
  induction f1 with
  | zero => intro f2 n h; omega
  | succ f ih =>
    intro f2 n h1 h2
    cases f2 with
    | zero => omega
    | succ f2' =>
      simp only [natToCharsAux]
      by_cases hn : n < 10
      · simp [hn]
      · have hd : n / 10 < f := by omega
        have hd2 : n / 10 < f2' := by omega
        simp [hn, ih f2' (n / 10) hd hd2]

/-- Unfolding equation for `natToChars` that recurses on `n / 10`. -/
theorem natToChars_eq (n : Nat) :
    natToChars n = if n < 10 then [digitChar n]
      else natToChars (n / 10) ++ [digitChar (n % 10)] := by
  by_cases hn : n < 10
  · simp [natToChars, natToCharsAux, hn]
  · have h1 : natToChars n = natToCharsAux n (n / 10) ++ [digitChar (n % 10)] := by
      simp only [natToChars, natToCharsAux]; rw [if_neg hn]
    rw [h1, natToCharsAux_fuel n (n / 10 + 1) (n / 10) (by omega) (by omega),
      if_neg hn]
    rfl

/-- ASCII upper-casing of one character, as in Go's `strings.ToUpper`
restricted to the ASCII strings this code feeds it. -/
def asciiUpper (c : Char) : Char :=
  if 97 ≤ c.toNat ∧ c.toNat ≤ 122 then Char.ofNat (c.toNat - 32) else c

/-- ASCII lower-casing of one character, as in Go's `strings.ToLower`
restricted to ASCII. -/
def asciiLower (c : Char) : Char :=
  if 65 ≤ c.toNat ∧ c.toNat ≤ 90 then Char.ofNat (c.toNat + 32) else c

/-- `strings.ToUpper` (ASCII fragment). -/
def toUpper (s : String) : String := String.mk (s.data.map asciiUpper)

/-- `strings.ToLower` (ASCII fragment). -/
def toLower (s : String) : String := String.mk (s.data.map asciiLower)

/-- `logrus.Level`: Panic = 0 < Fatal < Error < Warn < Info < Debug < Trace,
smaller numbers more severe. -/
inductive LogLevel where
  | PanicLevel | FatalLevel | ErrorLevel | WarnLevel
  | InfoLevel | DebugLevel | TraceLevel
deriving DecidableEq, Repr

/-- The numeric value of a `logrus.Level` (a `uint32` in the source). -/
def LogLevel.num : LogLevel → Nat
  | .PanicLevel => 0 | .FatalLevel => 1 | .ErrorLevel => 2 | .WarnLevel => 3
  | .InfoLevel => 4 | .DebugLevel => 5 | .TraceLevel => 6

/-- `logrus.Level.String()` (via `MarshalText`): note `warning`,
not `warn`. -/
def LogLevel.levelString : LogLevel → String
  | .PanicLevel => "panic" | .FatalLevel => "fatal" | .ErrorLevel => "error"
  | .WarnLevel => "warning" | .InfoLevel => "info" | .DebugLevel => "debug"
  | .TraceLevel => "trace"

/-- `logrus.ParseLevel`: case-insensitive; `none` models the
`not a valid logrus Level` error. -/
def ParseLevel (lvl : String) : Option LogLevel :=
  let l := toLower lvl
  if l = "panic" then some .PanicLevel
  else if l = "fatal" then some .FatalLevel
  else if l = "error" then some .ErrorLevel
  else if l = "warn" then some .WarnLevel
  else if l = "warning" then some .WarnLevel
  else if l = "info" then some .InfoLevel
  else if l = "debug" then some .DebugLevel
  else if l = "trace" then some .TraceLevel
  else none

/-- `logrus.Logger.IsLevelEnabled`: an entry at `entryLvl` passes the gate of
a logger configured at `loggerLvl` iff `loggerLvl >= entryLvl` numerically. -/
def levelEnabled (loggerLvl entryLvl : LogLevel) : Bool :=
  entryLvl.num ≤ loggerLvl.num

/-- A Go `time.Time` already converted to UTC, broken down into the fields
that `Format(time.RFC3339Nano)` reads. -/
structure UTCTime where
  year : Nat
  month : Nat
  day : Nat
  hour : Nat
  minute : Nat
  second : Nat
  nanos : Nat
deriving DecidableEq, Repr

/-- Left-pad a digit string with `'0'` to width `k`. -/
def padZero (k : Nat) (l : List Char) : List Char :=
  List.replicate (k - l.length) '0' ++ l

/-- Trailing `'0'`-stripping used by Go's `.999999999` fractional layout. -/
def stripTrailingZeros (l : List Char) : List Char :=
  (l.reverse.dropWhile (fun c => c = '0')).reverse

/-- The fractional-second part of `RFC3339Nano`: omitted when the
nanosecond field is zero, else a dot followed by up to nine digits with
trailing zeros removed. -/
def fracChars (ns : Nat) : List Char :=
  if ns = 0 then [] else '.' :: stripTrailingZeros (padZero 9 (natToChars ns))

/-- `t.UTC().Format(time.RFC3339Nano)` as a character list: layout
`2006-01-02T15:04:05.999999999Z07:00`, with `Z` for the UTC zone. -/
def rfc3339NanoChars (t : UTCTime) : List Char :=
  padZero 4 (natToChars t.year) ++
  ('-' :: (padZero 2 (natToChars t.month) ++
  ('-' :: (padZero 2 (natToChars t.day) ++
  ('T' :: (padZero 2 (natToChars t.hour) ++
  (':' :: (padZero 2 (natToChars t.minute) ++
  (':' :: (padZero 2 (natToChars t.second) ++
  (fracChars t.nanos ++ ['Z'])))))))))))

/-- String form of the RFC3339Nano rendering. -/
def rfc3339Nano (t : UTCTime) : String := String.mk (rfc3339NanoChars t)

/-- Character-level body of `escapeString`: replace each `"` by `\"`,
leave every other character alone (`strings.ReplaceAll(s, quote,
backslash-quote)`). -/
def escChars : List Char → List Char
  | [] => []
  | c :: rest => if c = '"' then '\\' :: '"' :: escChars rest
      else c :: escChars rest

/-- `escapeString` from `src/v1/logger/logger.go`. -/
def escapeString (s : String) : String := String.mk (escChars s.data)

/-- The subset of `logrus.Entry` that `JSONFormatter.Format` reads:
timestamp, level, message, optional caller line, structured fields
(`entry.Data`, with the string values these claims use). -/
structure Entry where
  time : UTCTime
  level : LogLevel
  message : String
  caller : Option Nat
  data : List (String × String)
deriving DecidableEq, Repr

/-- The left brace character (0x7b). -/
def lbrace : Char := Char.ofNat 123

/-- The right brace character (0x7d). -/
def rbrace : Char := Char.ofNat 125

/-- The character list produced by the `fmt.Sprintf` template
`\x7b"time":"%s","level":"%s","line":%d,"msg":"%s"\x7d` followed by a
newline, with `%s`/`%d` filled exactly as in the source: the RFC3339Nano
UTC timestamp, `strings.ToUpper(entry.Level.String())`, the caller line
(0 when `entry.HasCaller()` is false) and the escaped message. -/
def formatChars (e : Entry) : List Char :=
  lbrace :: '"' :: 't' :: 'i' :: 'm' :: 'e' :: '"' :: ':' :: '"' ::
  (rfc3339NanoChars e.time ++
   ('"' :: ',' :: '"' :: 'l' :: 'e' :: 'v' :: 'e' :: 'l' :: '"' :: ':' :: '"' ::
    ((toUpper e.level.levelString).data ++
     ('"' :: ',' :: '"' :: 'l' :: 'i' :: 'n' :: 'e' :: '"' :: ':' ::
      (natToChars (e.caller.getD 0) ++
       (',' :: '"' :: 'm' :: 's' :: 'g' :: '"' :: ':' :: '"' ::
        (escChars e.message.data ++
         ('"' :: rbrace :: '\n' :: []))))))))

/-- `JSONFormatter.Format` (the `Sprintf`-template variant of
`src/v1/logger/logger.go`): renders one line; the `error` return of the Go
signature is always `nil` on this path, so the embedding returns the
string directly. Note that `entry.Data` is not consulted. -/
def JSONFormatter.Format (e : Entry) : String := String.mk (formatChars e)

/-- `filepath.Ext`: the suffix beginning at the final dot in the final
slash-separated element, empty if there is no dot. Implemented, as in Go,
by scanning from the end until a path separator. -/
def extRevAux : List Char → List Char → List Char
  | [], _ => []
  | c :: rest, acc =>
    if c = '/' then []
    else if c = '.' then c :: acc
    else extRevAux rest (c :: acc)

/-- `filepath.Ext` over strings. -/
def filepath.Ext (s : String) : String := String.mk (extRevAux s.data.reverse [])

/-- `strings.TrimSuffix`. -/
def strings.TrimSuffix (s suffixStr : String) : String :=
  if suffixStr.data.isSuffixOf s.data then
    String.mk (s.data.take (s.data.length - suffixStr.data.length))
  else s

/-- `buildErrorFilename` from `src/v1/logger/logger.go`:
`base + "_error" + ext`. -/
def buildErrorFilename (filename : String) : String :=
  let ext := filepath.Ext filename
  let base := strings.TrimSuffix filename ext
  base ++ "_error" ++ ext

/-- A parsed JSON value. The objects this system emits are flat, with
string and non-negative integer number values only, so those are the
shapes the parser recognizes. -/
inductive JValue where
  | str (s : String)
  | num (n : Int)
deriving DecidableEq, Repr

/-- Decimal digit test used by the number parser. -/
def isDig (c : Char) : Bool := 48 ≤ c.toNat ∧ c.toNat ≤ 57

/-- Inverse of a JSON string escape: the character denoted by `\e`. -/
def unescChar (e : Char) : Option Char :=
  if e = '"' then some '"'
  else if e = '\\' then some '\\'
  else if e = '/' then some '/'
  else if e = 'n' then some '\n'
  else if e = 't' then some '\t'
  else if e = 'r' then some '\r'
  else if e = 'b' then some (Char.ofNat 8)
  else if e = 'f' then some (Char.ofNat 12)
  else none

/-- Parse the body of a JSON string (the opening quote already consumed):
returns the decoded characters and the input after the closing quote.
Fails on unterminated strings, bad escapes and raw control characters —
exactly the ways a JSON decoder rejects a string. -/
def parseStrAux : List Char → Option (List Char × List Char)
  | [] => none
  | c :: rest =>
    if c = '"' then some ([], rest)
    else if c = '\\' then
      match rest with
      | [] => none
      | e :: rest2 =>
        match unescChar e with
        | none => none
        | some d => (parseStrAux rest2).map (fun p => (d :: p.1, p.2))
    else if c.toNat < 32 then none
    else (parseStrAux rest).map (fun p => (c :: p.1, p.2))

/-- Consume a run of decimal digits, folding them onto `acc`. -/
def parseNatAux : Nat → List Char → Nat × List Char
  | acc, [] => (acc, [])
  | acc, c :: rest =>
    if isDig c then parseNatAux (acc * 10 + (c.toNat - 48)) rest
    else (acc, c :: rest)

/-- Parse a (non-negative) JSON number. -/
def parseNum (l : List Char) : Option (Int × List Char) :=
  match l with
  | [] => none
  | c :: _ =>
    if isDig c then
      let p := parseNatAux 0 l
      some ((p.1 : Int), p.2)
    else none

/-- Parse a JSON value: a string or a number. -/
def parseValue (l : List Char) : Option (JValue × List Char) :=
  match l with
  | [] => none
  | c :: rest =>
    if c = '"' then (parseStrAux rest).map (fun p => (JValue.str (String.mk p.1), p.2))
    else (parseNum (c :: rest)).map (fun p => (JValue.num p.1, p.2))

/-- Parse the members of a JSON object after the opening brace, for a
non-empty member list: `"key":value` pairs separated by commas, closed by
a right brace. `fuel` bounds the number of members. -/
def parsePairs : Nat → List Char → Option (List (String × JValue) × List Char)
  | 0, _ => none
  | _ + 1, [] => none
  | fuel + 1, c :: rest =>
    if c = '"' then
      match parseStrAux rest with
      | none => none
      | some (key, r1) =>
        match r1 with
        | [] => none
        | d :: r2 =>
          if d = ':' then
            match parseValue r2 with
            | none => none
            | some (v, r3) =>
              match r3 with
              | [] => none
              | b :: r4 =>
                if b = ',' then
                  match parsePairs fuel r4 with
                  | none => none
                  | some (ps, r) => some ((String.mk key, v) :: ps, r)
                else if b = rbrace then some ([(String.mk key, v)], r4)
                else none
          else none
    else none

/-- Parse a JSON object (no surrounding whitespace, as in the emitted
lines): `\x7b` then members then `\x7d`. -/
def parseObj (l : List Char) : Option (List (String × JValue) × List Char) :=
  match l with
  | [] => none
  | c :: rest =>
    if c = lbrace then
      match rest with
      | [] => none
      | d :: r2 =>
        if d = rbrace then some ([], r2)
        else parsePairs (rest.length + 1) rest
    else none

/-- Parse one emitted log line as JSON: a single object, optionally
terminated by the trailing newline the formatter appends, and nothing
else. `none` means the line is not valid JSON. -/
def parseJsonLine (s : String) : Option (List (String × JValue)) :=
  match parseObj s.data with
  | some (ps, []) => some ps
  | some (ps, [c]) => if c = '\n' then some ps else none
  | _ => none

/-- `ErrorHook.Levels`: the levels that fire the error-mirror hook. -/
def ErrorHook.Levels : List LogLevel :=
  [.ErrorLevel, .FatalLevel, .PanicLevel]

/-- The v1 `logrus.Logger` as configured by `NewLogger`, with its two
sinks modelled as the lists of lines they have received. `hook` records
whether the `ErrorHook` was attached (`withErrorFile`). -/
structure LoggerV1 where
  level : LogLevel
  hook : Bool
  mainLogPath : String
  errorLogPath : Option String
  primary : List String
  errorOut : List String
deriving DecidableEq, Repr

/-- `filepath.Join` for the clean, non-empty relative paths this code
builds. -/
def joinPath (dir file : String) : String := dir ++ "/" ++ file

/-- `NewLogger(logDir, logFile, logLevel, withErrorFile)` from
`src/v1/logger/logger.go`. `mkdirOk` is the outcome of
`os.MkdirAll(logDir, ...)`; on failure the function panics, modelled as
`none`. An unparsable level falls back to `InfoLevel`; sinks start
empty. -/
def NewLogger (logDir logFile logLevel : String) (withErrorFile : Bool)
    (mkdirOk : Bool) : Option LoggerV1 :=
  if mkdirOk = false then none
  else
    some
      { level := (ParseLevel logLevel).getD .InfoLevel
        hook := withErrorFile
        mainLogPath := joinPath logDir logFile
        errorLogPath :=
          if withErrorFile then some (joinPath logDir (buildErrorFilename logFile))
          else none
        primary := []
        errorOut := [] }

/-- One emit through the v1 logger: the level gate
(`IsLevelEnabled`), then — for passing entries — the hooks
(`ErrorHook.Fire` re-renders with the same formatter and writes to the
error sink; a failed mirror write, `mirrorOk = false`, is only reported)
and then the write of the rendered line to the primary sink. The primary
write does not depend on the hook's outcome. -/
def LoggerV1.emit (lg : LoggerV1) (e : Entry) (mirrorOk : Bool) : LoggerV1 :=
  if levelEnabled lg.level e.level then
    let line := JSONFormatter.Format e
    let lg1 :=
      if lg.hook ∧ e.level ∈ ErrorHook.Levels ∧ mirrorOk then
        { lg with errorOut := lg.errorOut ++ [line] }
      else lg
    { lg1 with primary := lg1.primary ++ [line] }
  else lg

/-- A logger stored in the registry: `id` distinguishes instances (each
successful `newLogger` call returns a fresh one). -/
structure LoggerR where
  id : Nat
  rname : String
  level : LogLevel
deriving DecidableEq, Repr

/-- The registry package's global state: the `loggers` map, the
`defaultLogger` slot, the `sync.Once` gate, plus the file-system facts the
claims observe (directories created, log files opened/created) and the
fresh-instance counter. -/
structure RegState where
  entries : List (String × LoggerR)
  defaultSlot : Option LoggerR
  onceDone : Bool
  dirs : List String
  files : List String
  next : Nat
deriving DecidableEq, Repr

/-- The empty registry at process start. -/
def RegState.initial : RegState :=
  { entries := [], defaultSlot := none, onceDone := false
    dirs := [], files := [], next := 0 }

/-- `newLogger(loggerName, levelString, logsDir)` from the registry
variant. `openOk` is the outcome of `os.OpenFile(...O_CREATE...)`. The
file is created/opened *before* the level is validated, and an invalid
level is an error (no fallback here). Returns the updated file-system
state together with the result. -/
def newLogger (st : RegState) (loggerName levelString logsDir : String)
    (openOk : Bool) : RegState × Except String LoggerR :=
  let logFilePath := joinPath logsDir (loggerName ++ ".log")
  if openOk = false then
    (st, .error ("failed to open log file " ++ logFilePath))
  else
    let st1 := { st with files := logFilePath :: st.files }
    match ParseLevel levelString with
    | none => (st1, .error ("invalid log level " ++ levelString))
    | some lvl =>
      ({ st1 with next := st1.next + 1 },
       .ok { id := st1.next, rname := loggerName, level := lvl })

/-- `InitializeLogger(loggerName, levelString, logsDir)`: under the lock,
return success untouched if the name exists; else `os.MkdirAll(logsDir)`
(outcome `mkdirOk`), then `newLogger`, and only on success store the new
logger under the name. `none` in the second component is a `nil` error. -/
def InitializeLogger (st : RegState) (loggerName levelString logsDir : String)
    (mkdirOk openOk : Bool) : RegState × Option String :=
  match st.entries.lookup loggerName with
  | some _ => (st, none)
  | none =>
    if mkdirOk = false then (st, some "failed to create logs directory")
    else
      let st1 := { st with dirs := logsDir :: st.dirs }
      match newLogger st1 loggerName levelString logsDir openOk with
      | (st2, .error e) => (st2, some e)
      | (st2, .ok lg) =>
        ({ st2 with entries := (loggerName, lg) :: st2.entries }, none)

/-- `InitializeDefaultLogger(levelString, logsDir)`: the body runs under
`once.Do`, so it executes only on the first call; the local `err`
variable of any later call is never assigned and the call returns `nil`.
The gate is consumed even when the body fails. -/
def InitializeDefaultLogger (st : RegState) (levelString logsDir : String)
    (mkdirOk openOk : Bool) : RegState × Option String :=
  if st.onceDone then (st, none)
  else
    let st0 := { st with onceDone := true }
    if mkdirOk = false then (st0, some "failed to create logs directory")
    else
      let st1 := { st0 with dirs := logsDir :: st0.dirs }
      match newLogger st1 "default" levelString logsDir openOk with
      | (st2, .error e) => (st2, some e)
      | (st2, .ok lg) => ({ st2 with defaultSlot := some lg }, none)

/-- `GetLogger(loggerName)`: the named logger if present, else the
default logger if set; `none` models the `panic("Logger not
initialized...")`. -/
def GetLogger (st : RegState) (loggerName : String) : Option LoggerR :=
  match st.entries.lookup loggerName with
  | some lg => some lg
  | none =>
    match st.defaultSlot with
    | some d => some d
    | none => none

/-- One registry call, with its environment outcomes. -/
inductive RegOp where
  | initLogger (loggerName levelString logsDir : String) (mkdirOk openOk : Bool)
  | initDefault (levelString logsDir : String) (mkdirOk openOk : Bool)
deriving DecidableEq, Repr

/-- Apply one registry call to the state, dropping the returned error. -/
def applyOp (st : RegState) : RegOp → RegState
  | .initLogger n l d m o => (InitializeLogger st n l d m o).1
  | .initDefault l d m o => (InitializeDefaultLogger st l d m o).1

/-- Run a sequence of registry calls. -/
def runOps (st : RegState) : List RegOp → RegState
  | [] => st
  | op :: ops => runOps (applyOp st op) ops

/-- A character that a JSON string can hold verbatim: not a quote, not a
backslash, not a control character. -/
def safeChar (c : Char) : Prop := c ≠ '"' ∧ c ≠ '\\' ∧ 32 ≤ c.toNat

instance (c : Char) : Decidable (safeChar c) := by
  unfold safeChar; infer_instance

/-- Unfolding equation for `parseStrAux` on a cons cell (the nested
matches in its body split the automatically generated equations). -/
theorem parseStrAux_cons_eq (c : Char) (l : List Char) :
    parseStrAux (c :: l) =
      if c = '"' then some ([], l)
      else if c = '\\' then
        match l with
        | [] => none
        | e :: rest2 =>
          match unescChar e with
          | none => none
          | some d => (parseStrAux rest2).map (fun p => (d :: p.1, p.2))
      else if c.toNat < 32 then none
      else (parseStrAux l).map (fun p => (c :: p.1, p.2)) := by
  cases l <;> rfl

/-- The string parser consumes a run of safe characters verbatim up to the
closing quote. -/
theorem parseStrAux_safe (s : List Char) (rest : List Char)
    (h : ∀ c ∈ s, safeChar c) :
    parseStrAux (s ++ '"' :: rest) = some (s, rest) := by
  induction s with
  | nil =>
    rw [List.nil_append, parseStrAux_cons_eq, if_pos rfl]
  | cons c cs ih =>
    have hc : safeChar c := h c (List.mem_cons_self c cs)
    have hcs : ∀ x ∈ cs, safeChar x := fun x hx => h x (List.mem_cons_of_mem c hx)
    rw [List.cons_append, parseStrAux_cons_eq, if_neg hc.1, if_neg hc.2.1,
      if_neg (by have := hc.2.2; omega : ¬ c.toNat < 32), ih hcs]
    rfl

/-- The string parser undoes `escapeString` for messages free of
backslashes and control characters (quotes are fine). -/
theorem parseStrAux_esc (m : List Char) (rest : List Char)
    (h : ∀ c ∈ m, c ≠ '\\' ∧ 32 ≤ c.toNat) :
    parseStrAux (escChars m ++ '"' :: rest) = some (m, rest) := by
  induction m with
  | nil =>
    rw [show escChars [] = [] from rfl, List.nil_append, parseStrAux_cons_eq,
      if_pos rfl]
  | cons c cs ih =>
    have hc := h c (List.mem_cons_self c cs)
    have hcs : ∀ x ∈ cs, x ≠ '\\' ∧ 32 ≤ x.toNat :=
      fun x hx => h x (List.mem_cons_of_mem c hx)
    by_cases hq : c = '"'
    · subst hq
      rw [show escChars ('"' :: cs) = '\\' :: '"' :: escChars cs from rfl,
        List.cons_append, List.cons_append, parseStrAux_cons_eq,
        if_neg (by decide : ¬ ('\\' : Char) = '"'), if_pos rfl]
      simp only [unescChar, if_pos rfl, ih hcs]
      rfl
    · rw [show escChars (c :: cs) = c :: escChars cs from if_neg hq,
        List.cons_append, parseStrAux_cons_eq, if_neg hq, if_neg hc.1,
        if_neg (by have := hc.2; omega : ¬ c.toNat < 32), ih hcs]
      rfl

/-- Every character `digitChar` produces is a decimal digit. -/
theorem digitChar_isDig (d : Nat) : isDig (digitChar d) = true := by
  match d with
  | 0 | 1 | 2 | 3 | 4 | 5 | 6 | 7 | 8 => decide
  | n + 9 =>
    show isDig '9' = true
    decide

/-- The code of `digitChar d` for an actual digit. -/
theorem digitChar_toNat (d : Nat) (h : d < 10) :
    (digitChar d).toNat = 48 + d := by
  interval_cases d <;> decide

/-- All characters of the decimal rendering are digits. -/
theorem natToChars_digits (n : Nat) : ∀ c ∈ natToChars n, isDig c := by
  induction n using Nat.strong_induction_on with
  | _ n ih =>
    rw [natToChars_eq]
    by_cases hn : n < 10
    · simp only [if_pos hn, List.mem_singleton]
      rintro c rfl
      exact digitChar_isDig n
    · simp only [if_neg hn, List.mem_append, List.mem_singleton]
      rintro c (h | rfl)
      · exact ih (n / 10) (Nat.div_lt_self (by omega) (by omega)) c h
      · exact digitChar_isDig (n % 10)

/-- The decimal rendering is never empty. -/
theorem natToChars_ne_nil (n : Nat) : natToChars n ≠ [] := by
  rw [natToChars_eq]
  by_cases hn : n < 10 <;> simp [hn]

/-- Folding the parsed digits of `natToChars n` onto an accumulator. -/
theorem parseNatAux_append (n : Nat) : ∀ acc tail,
    parseNatAux acc (natToChars n ++ tail)
      = parseNatAux (acc * 10 ^ (natToChars n).length + n) tail := by
  induction n using Nat.strong_induction_on with
  | _ n ih =>
    intro acc tail
    rw [natToChars_eq]
    by_cases hn : n < 10
    · simp only [if_pos hn, List.singleton_append, parseNatAux,
        digitChar_isDig n, if_pos, List.length_singleton, pow_one]
      rw [digitChar_toNat n hn]
      congr 1
      omega
    · simp only [if_neg hn, List.append_assoc, List.singleton_append]
      rw [ih (n / 10) (Nat.div_lt_self (by omega) (by omega))]
      simp only [parseNatAux, digitChar_isDig (n % 10), if_pos]
      rw [digitChar_toNat (n % 10) (by omega)]
      have hlen : (natToChars (n / 10) ++ [digitChar (n % 10)]).length
          = (natToChars (n / 10)).length + 1 := by simp
      rw [hlen, pow_succ, ← Nat.mul_assoc]
      congr 1
      omega

/-- Parsing a rendered number followed by a non-digit recovers the
number. -/
theorem parseNum_natToChars (n : Nat) (c : Char) (rest : List Char)
    (hc : isDig c = false) :
    parseNum (natToChars n ++ c :: rest) = some ((n : Int), c :: rest) := by
  obtain ⟨d, ds, hds⟩ : ∃ d ds, natToChars n = d :: ds := by
    cases h : natToChars n with
    | nil => exact absurd h (natToChars_ne_nil n)
    | cons d ds => exact ⟨d, ds, rfl⟩
  have hd : isDig d := natToChars_digits n d (by rw [hds]; exact List.mem_cons_self d ds)
  have hstep : parseNatAux 0 (natToChars n ++ c :: rest) = (n, c :: rest) := by
    rw [parseNatAux_append]
    simp [parseNatAux, hc]
  rw [hds, List.cons_append] at hstep ⊢
  simp only [parseNum, hd, if_pos, hstep]

/-- A digit is not a quote. -/
theorem isDig_ne_quote (c : Char) (h : isDig c = true) : c ≠ '"' := by
  rintro rfl
  simp [isDig] at h

/-- Parsing a number value. -/
theorem parseValue_natToChars (n : Nat) (c : Char) (rest : List Char)
    (hc : isDig c = false) :
    parseValue (natToChars n ++ c :: rest)
      = some (JValue.num (n : Int), c :: rest) := by
  obtain ⟨d, ds, hds⟩ : ∃ d ds, natToChars n = d :: ds := by
    cases h : natToChars n with
    | nil => exact absurd h (natToChars_ne_nil n)
    | cons d ds => exact ⟨d, ds, rfl⟩
  have hd : isDig d := natToChars_digits n d (by rw [hds]; exact List.mem_cons_self d ds)
  have hnum := parseNum_natToChars n c rest hc
  rw [hds, List.cons_append] at hnum ⊢
  simp only [parseValue, if_neg (isDig_ne_quote d hd), hnum]
  rfl

/-- Digits are safe JSON string characters. -/
theorem isDig_safe (c : Char) (h : isDig c = true) : safeChar c := by
  simp only [isDig, decide_eq_true_eq] at h
  refine ⟨?_, ?_, by omega⟩
  · rintro rfl; simp at h
  · rintro rfl; simp at h

/-- `stripTrailingZeros` keeps only characters of its input. -/
theorem stripTrailingZeros_subset (l : List Char) :
    ∀ c ∈ stripTrailingZeros l, c ∈ l := by
  intro c hc
  unfold stripTrailingZeros at hc
  have h1 : c ∈ l.reverse.dropWhile (fun c => c = '0') := List.mem_reverse.1 hc
  exact List.mem_reverse.1 ((List.dropWhile_suffix _).sublist.subset h1)

/-- All characters of an append are safe when both sides are. -/
theorem safe_append (l1 l2 : List Char) (h1 : ∀ c ∈ l1, safeChar c)
    (h2 : ∀ c ∈ l2, safeChar c) : ∀ c ∈ l1 ++ l2, safeChar c := by
  intro c hc
  rcases List.mem_append.1 hc with h | h
  · exact h1 c h
  · exact h2 c h

/-- All characters of a cons are safe when head and tail are. -/
theorem safe_cons (d : Char) (l : List Char) (hd : safeChar d)
    (h : ∀ c ∈ l, safeChar c) : ∀ c ∈ d :: l, safeChar c := by
  intro c hc
  rcases List.mem_cons.1 hc with rfl | h2
  · exact hd
  · exact h c h2

/-- Every character of the RFC3339Nano rendering is safe: it is a digit
or one of `-`, `:`, `T`, `.`, `Z`. -/
theorem rfc3339NanoChars_safe (t : UTCTime) :
    ∀ c ∈ rfc3339NanoChars t, safeChar c := by
  have hpad : ∀ (k n : Nat), ∀ c ∈ padZero k (natToChars n), safeChar c := by
    intro k n c hc
    rcases List.mem_append.1 hc with h | h
    · rw [List.eq_of_mem_replicate h]; decide
    · exact isDig_safe c (natToChars_digits n c h)
  have hfrac : ∀ ns : Nat, ∀ c ∈ fracChars ns, safeChar c := by
    intro ns
    unfold fracChars
    by_cases h0 : ns = 0
    · simp [h0]
    · rw [if_neg h0]
      exact safe_cons _ _ (by decide)
        (fun c hc => hpad 9 ns c (stripTrailingZeros_subset _ c hc))
  unfold rfc3339NanoChars
  refine safe_append _ _ (hpad 4 _) ?_
  refine safe_cons _ _ (by decide) ?_
  refine safe_append _ _ (hpad 2 _) ?_
  refine safe_cons _ _ (by decide) ?_
  refine safe_append _ _ (hpad 2 _) ?_
  refine safe_cons _ _ (by decide) ?_
  refine safe_append _ _ (hpad 2 _) ?_
  refine safe_cons _ _ (by decide) ?_
  refine safe_append _ _ (hpad 2 _) ?_
  refine safe_cons _ _ (by decide) ?_
  refine safe_append _ _ (hpad 2 _) ?_
  exact safe_append _ _ (hfrac _) (by decide)

/-- One `"key":value,` step of the object parser. -/
theorem parsePairs_cons (f : Nat) (rest r2 r4 : List Char) (key : List Char)
    (v : JValue) (ps : List (String × JValue)) (rfin : List Char)
    (hk : parseStrAux rest = some (key, ':' :: r2))
    (hv : parseValue r2 = some (v, ',' :: r4))
    (hrec : parsePairs f r4 = some (ps, rfin)) :
    parsePairs (f + 1) ('"' :: rest) = some ((String.mk key, v) :: ps, rfin) := by
  simp only [parsePairs, if_pos rfl, hk, hv, hrec, eq_self_iff_true, if_true]

/-- The final `"key":value` step of the object parser, closed by the
right brace. -/
theorem parsePairs_last (f : Nat) (rest r2 r4 : List Char) (key : List Char)
    (v : JValue)
    (hk : parseStrAux rest = some (key, ':' :: r2))
    (hv : parseValue r2 = some (v, rbrace :: r4)) :
    parsePairs (f + 1) ('"' :: rest) = some ([(String.mk key, v)], r4) := by
  simp only [parsePairs, if_pos rfl, hk, hv, eq_self_iff_true, if_true]
  rfl

/-- The upper-cased level names contain only safe characters. -/
theorem levelUpper_safe (l : LogLevel) :
    ∀ c ∈ (toUpper l.levelString).data, safeChar c := by
  cases l <;> decide

/-- Parsing the four members of a formatted log line, for any fuel of at
least 4. -/
theorem parsePairs_fmtLine (fuel : Nat) (T L M msg : List Char) (n : Nat)
    (hfuel : 4 ≤ fuel)
    (hT : ∀ c ∈ T, safeChar c) (hL : ∀ c ∈ L, safeChar c)
    (hM : parseStrAux (M ++ '"' :: rbrace :: '\n' :: [])
      = some (msg, [rbrace, '\n'])) :
    parsePairs fuel
      ('"' :: 't' :: 'i' :: 'm' :: 'e' :: '"' :: ':' :: '"' ::
       (T ++
        ('"' :: ',' :: '"' :: 'l' :: 'e' :: 'v' :: 'e' :: 'l' :: '"' :: ':' :: '"' ::
         (L ++
          ('"' :: ',' :: '"' :: 'l' :: 'i' :: 'n' :: 'e' :: '"' :: ':' ::
           (natToChars n ++
            (',' :: '"' :: 'm' :: 's' :: 'g' :: '"' :: ':' :: '"' ::
             (M ++ ('"' :: rbrace :: '\n' :: [])))))))))
      = some ([("time", JValue.str (String.mk T)),
               ("level", JValue.str (String.mk L)),
               ("line", JValue.num (n : Int)),
               ("msg", JValue.str (String.mk msg))], ['\n']) := by
  obtain ⟨f, rfl⟩ : ∃ f, fuel = f + 4 := ⟨fuel - 4, by omega⟩
  -- fourth pair: "msg"
  have h4 : parsePairs (f + 1)
      ('"' :: 'm' :: 's' :: 'g' :: '"' :: ':' :: '"' ::
       (M ++ ('"' :: rbrace :: '\n' :: [])))
      = some ([("msg", JValue.str (String.mk msg))], ['\n']) := by
    have hk : parseStrAux ('m' :: 's' :: 'g' :: '"' :: ':' :: '"' ::
        (M ++ ('"' :: rbrace :: '\n' :: [])))
        = some (['m', 's', 'g'], ':' :: '"' ::
            (M ++ ('"' :: rbrace :: '\n' :: []))) :=
      parseStrAux_safe ['m', 's', 'g'] _ (by decide)
    have hv : parseValue ('"' :: (M ++ ('"' :: rbrace :: '\n' :: [])))
        = some (JValue.str (String.mk msg), rbrace :: ['\n']) := by
      simp only [parseValue, if_pos rfl]
      rw [show M ++ ('"' :: rbrace :: '\n' :: [])
          = M ++ '"' :: rbrace :: '\n' :: [] from rfl, hM]
      rfl
    exact parsePairs_last f _ _ _ _ _ hk hv
  -- third pair: "line"
  have h3 : parsePairs (f + 2)
      ('"' :: 'l' :: 'i' :: 'n' :: 'e' :: '"' :: ':' ::
       (natToChars n ++
        (',' :: '"' :: 'm' :: 's' :: 'g' :: '"' :: ':' :: '"' ::
         (M ++ ('"' :: rbrace :: '\n' :: [])))))
      = some ([("line", JValue.num (n : Int)),
               ("msg", JValue.str (String.mk msg))], ['\n']) := by
    have hk : parseStrAux ('l' :: 'i' :: 'n' :: 'e' :: '"' :: ':' ::
        (natToChars n ++
         (',' :: '"' :: 'm' :: 's' :: 'g' :: '"' :: ':' :: '"' ::
          (M ++ ('"' :: rbrace :: '\n' :: [])))))
        = some (['l', 'i', 'n', 'e'], ':' ::
            (natToChars n ++
             (',' :: '"' :: 'm' :: 's' :: 'g' :: '"' :: ':' :: '"' ::
              (M ++ ('"' :: rbrace :: '\n' :: []))))) :=
      parseStrAux_safe ['l', 'i', 'n', 'e'] _ (by decide)
    have hv : parseValue
        (natToChars n ++
         (',' :: '"' :: 'm' :: 's' :: 'g' :: '"' :: ':' :: '"' ::
          (M ++ ('"' :: rbrace :: '\n' :: []))))
        = some (JValue.num (n : Int), ',' ::
            ('"' :: 'm' :: 's' :: 'g' :: '"' :: ':' :: '"' ::
             (M ++ ('"' :: rbrace :: '\n' :: [])))) :=
      parseValue_natToChars n ',' _ (by decide)
    exact parsePairs_cons (f + 1) _ _ _ _ _ _ _ hk hv h4
  -- second pair: "level"
  have h2 : parsePairs (f + 3)
      ('"' :: 'l' :: 'e' :: 'v' :: 'e' :: 'l' :: '"' :: ':' :: '"' ::
       (L ++
        ('"' :: ',' :: '"' :: 'l' :: 'i' :: 'n' :: 'e' :: '"' :: ':' ::
         (natToChars n ++
          (',' :: '"' :: 'm' :: 's' :: 'g' :: '"' :: ':' :: '"' ::
           (M ++ ('"' :: rbrace :: '\n' :: [])))))))
      = some ([("level", JValue.str (String.mk L)),
               ("line", JValue.num (n : Int)),
               ("msg", JValue.str (String.mk msg))], ['\n']) := by
    have hk : parseStrAux ('l' :: 'e' :: 'v' :: 'e' :: 'l' :: '"' :: ':' :: '"' ::
        (L ++
         ('"' :: ',' :: '"' :: 'l' :: 'i' :: 'n' :: 'e' :: '"' :: ':' ::
          (natToChars n ++
           (',' :: '"' :: 'm' :: 's' :: 'g' :: '"' :: ':' :: '"' ::
            (M ++ ('"' :: rbrace :: '\n' :: [])))))))
        = some (['l', 'e', 'v', 'e', 'l'], ':' :: '"' ::
            (L ++
             ('"' :: ',' :: '"' :: 'l' :: 'i' :: 'n' :: 'e' :: '"' :: ':' ::
              (natToChars n ++
               (',' :: '"' :: 'm' :: 's' :: 'g' :: '"' :: ':' :: '"' ::
                (M ++ ('"' :: rbrace :: '\n' :: []))))))) :=
      parseStrAux_safe ['l', 'e', 'v', 'e', 'l'] _ (by decide)
    have hv : parseValue ('"' ::
        (L ++
         ('"' :: ',' :: '"' :: 'l' :: 'i' :: 'n' :: 'e' :: '"' :: ':' ::
          (natToChars n ++
           (',' :: '"' :: 'm' :: 's' :: 'g' :: '"' :: ':' :: '"' ::
            (M ++ ('"' :: rbrace :: '\n' :: [])))))))
        = some (JValue.str (String.mk L), ',' ::
            ('"' :: 'l' :: 'i' :: 'n' :: 'e' :: '"' :: ':' ::
             (natToChars n ++
              (',' :: '"' :: 'm' :: 's' :: 'g' :: '"' :: ':' :: '"' ::
               (M ++ ('"' :: rbrace :: '\n' :: [])))))) := by
      simp only [parseValue, if_pos rfl]
      rw [show L ++
          ('"' :: ',' :: '"' :: 'l' :: 'i' :: 'n' :: 'e' :: '"' :: ':' ::
           (natToChars n ++
            (',' :: '"' :: 'm' :: 's' :: 'g' :: '"' :: ':' :: '"' ::
             (M ++ ('"' :: rbrace :: '\n' :: [])))))
          = L ++ '"' :: (',' ::
            ('"' :: 'l' :: 'i' :: 'n' :: 'e' :: '"' :: ':' ::
             (natToChars n ++
              (',' :: '"' :: 'm' :: 's' :: 'g' :: '"' :: ':' :: '"' ::
               (M ++ ('"' :: rbrace :: '\n' :: [])))))) from rfl,
        parseStrAux_safe L _ hL]
      rfl
    exact parsePairs_cons (f + 2) _ _ _ _ _ _ _ hk hv h3
  -- first pair: "time"
  have hk : parseStrAux ('t' :: 'i' :: 'm' :: 'e' :: '"' :: ':' :: '"' ::
      (T ++
       ('"' :: ',' :: '"' :: 'l' :: 'e' :: 'v' :: 'e' :: 'l' :: '"' :: ':' :: '"' ::
        (L ++
         ('"' :: ',' :: '"' :: 'l' :: 'i' :: 'n' :: 'e' :: '"' :: ':' ::
          (natToChars n ++
           (',' :: '"' :: 'm' :: 's' :: 'g' :: '"' :: ':' :: '"' ::
            (M ++ ('"' :: rbrace :: '\n' :: [])))))))))
      = some (['t', 'i', 'm', 'e'], ':' :: '"' ::
          (T ++
           ('"' :: ',' :: '"' :: 'l' :: 'e' :: 'v' :: 'e' :: 'l' :: '"' :: ':' :: '"' ::
            (L ++
             ('"' :: ',' :: '"' :: 'l' :: 'i' :: 'n' :: 'e' :: '"' :: ':' ::
              (natToChars n ++
               (',' :: '"' :: 'm' :: 's' :: 'g' :: '"' :: ':' :: '"' ::
                (M ++ ('"' :: rbrace :: '\n' :: []))))))))) :=
    parseStrAux_safe ['t', 'i', 'm', 'e'] _ (by decide)
  have hv : parseValue ('"' ::
      (T ++
       ('"' :: ',' :: '"' :: 'l' :: 'e' :: 'v' :: 'e' :: 'l' :: '"' :: ':' :: '"' ::
        (L ++
         ('"' :: ',' :: '"' :: 'l' :: 'i' :: 'n' :: 'e' :: '"' :: ':' ::
          (natToChars n ++
           (',' :: '"' :: 'm' :: 's' :: 'g' :: '"' :: ':' :: '"' ::
            (M ++ ('"' :: rbrace :: '\n' :: [])))))))))
      = some (JValue.str (String.mk T), ',' ::
          ('"' :: 'l' :: 'e' :: 'v' :: 'e' :: 'l' :: '"' :: ':' :: '"' ::
           (L ++
            ('"' :: ',' :: '"' :: 'l' :: 'i' :: 'n' :: 'e' :: '"' :: ':' ::
             (natToChars n ++
              (',' :: '"' :: 'm' :: 's' :: 'g' :: '"' :: ':' :: '"' ::
               (M ++ ('"' :: rbrace :: '\n' :: [])))))))) := by
    simp only [parseValue, if_pos rfl]
    rw [show T ++
        ('"' :: ',' :: '"' :: 'l' :: 'e' :: 'v' :: 'e' :: 'l' :: '"' :: ':' :: '"' ::
         (L ++
          ('"' :: ',' :: '"' :: 'l' :: 'i' :: 'n' :: 'e' :: '"' :: ':' ::
           (natToChars n ++
            (',' :: '"' :: 'm' :: 's' :: 'g' :: '"' :: ':' :: '"' ::
             (M ++ ('"' :: rbrace :: '\n' :: [])))))))
        = T ++ '"' :: (',' ::
          ('"' :: 'l' :: 'e' :: 'v' :: 'e' :: 'l' :: '"' :: ':' :: '"' ::
           (L ++
            ('"' :: ',' :: '"' :: 'l' :: 'i' :: 'n' :: 'e' :: '"' :: ':' ::
             (natToChars n ++
              (',' :: '"' :: 'm' :: 's' :: 'g' :: '"' :: ':' :: '"' ::
               (M ++ ('"' :: rbrace :: '\n' :: [])))))))) from rfl,
      parseStrAux_safe T _ hT]
    rfl
  exact parsePairs_cons (f + 3) _ _ _ _ _ _ _ hk hv h2

/-- Rendering an entry whose message is free of backslashes and control
characters and parsing the line back yields exactly the four keys
`time`, `level`, `line`, `msg` with the rendered values; the structured
fields in `entry.Data` do not appear. -/
theorem format_parse (e : Entry)
    (hm : ∀ c ∈ e.message.data, c ≠ '\\' ∧ 32 ≤ c.toNat) :
    parseJsonLine (JSONFormatter.Format e)
      = some [("time", JValue.str (rfc3339Nano e.time)),
              ("level", JValue.str (toUpper e.level.levelString)),
              ("line", JValue.num ((e.caller.getD 0 : Nat) : Int)),
              ("msg", JValue.str e.message)] := by
  have hM : parseStrAux (escChars e.message.data ++ '"' :: rbrace :: '\n' :: [])
      = some (e.message.data, [rbrace, '\n']) :=
    parseStrAux_esc e.message.data (rbrace :: '\n' :: []) hm
  have hobj : parseObj (formatChars e)
      = some ([("time", JValue.str (rfc3339Nano e.time)),
               ("level", JValue.str (toUpper e.level.levelString)),
               ("line", JValue.num ((e.caller.getD 0 : Nat) : Int)),
               ("msg", JValue.str e.message)], ['\n']) := by
    unfold formatChars
    simp only [parseObj, if_pos rfl]
    rw [if_neg (by decide : ¬ ('"' : Char) = rbrace)]
    exact parsePairs_fmtLine _ _ _ _ _ _
      (by simp only [List.length_cons]; omega)
      (rfc3339NanoChars_safe e.time) (levelUpper_safe e.level) hM
  simp only [parseJsonLine]
  rw [show (JSONFormatter.Format e).data = formatChars e from rfl, hobj]
  rfl

/-- The extension scan either finds no extension or splits the input:
walking the reversed characters, the accumulator invariant recovers a
prefix/extension decomposition of the original string. -/
theorem extRevAux_cases : ∀ (r acc : List Char),
    extRevAux r acc = [] ∨
      ∃ pre : List Char, r.reverse ++ acc = pre ++ extRevAux r acc := by
  intro r
  induction r with
  | nil => intro acc; left; rfl
  | cons c rest ih =>
    intro acc
    by_cases h1 : c = '/'
    · left; simp [extRevAux, h1]
    · by_cases h2 : c = '.'
      · right
        refine ⟨rest.reverse, ?_⟩
        simp [extRevAux, h1, h2]
      · rcases ih (c :: acc) with h | ⟨pre, hp⟩
        · left; simpa [extRevAux, h1, h2] using h
        · right
          refine ⟨pre, ?_⟩
          rw [show extRevAux (c :: rest) acc = extRevAux rest (c :: acc)
              from by simp [extRevAux, h1, h2],
            List.reverse_cons, List.append_assoc]
          simpa using hp

/-- `filepath.Ext s` is a suffix of `s`: the string splits as base plus
extension. -/
theorem ext_split (s : String) : ∃ b : List Char,
    s.data = b ++ (filepath.Ext s).data := by
  have hdata : (filepath.Ext s).data = extRevAux s.data.reverse [] := rfl
  rcases extRevAux_cases s.data.reverse [] with h | ⟨pre, hp⟩
  · exact ⟨s.data, by rw [hdata, h, List.append_nil]⟩
  · refine ⟨pre, ?_⟩
    rw [hdata]
    rwa [List.reverse_reverse, List.append_nil] at hp

/-- C4 (confirmed). The error-mirror filename is derived by inserting
`_error` between the base name and the extension: the two spec examples
hold, and in general every filename splits as `base ++ ext` with
`ext = filepath.Ext f` and `buildErrorFilename f = base ++ "_error" ++
ext` (so a filename without an extension gets the suffix appended with no
extension). -/
theorem claim_C4 :
    buildErrorFilename "service.log" = "service_error.log" ∧
    buildErrorFilename "service" = "service_error" ∧
    ∀ f : String, ∃ b : String,
      f = b ++ filepath.Ext f ∧
      buildErrorFilename f = b ++ "_error" ++ filepath.Ext f := by
  refine ⟨by decide, by decide, ?_⟩
  intro f
  obtain ⟨b, hb⟩ := ext_split f
  have hsuf : (filepath.Ext f).data.isSuffixOf f.data :=
    List.isSuffixOf_iff_suffix.mpr ⟨b, hb.symm⟩
  have hlen : f.data.length - (filepath.Ext f).data.length = b.length := by
    rw [hb]; simp
  refine ⟨String.mk b, ?_, ?_⟩
  · refine (String.ext ?_).symm
    rw [String.data_append]
    exact hb.symm
  · simp only [buildErrorFilename, strings.TrimSuffix, if_pos hsuf]
    rw [hlen, hb, List.take_left]

/-- C1 (counterexample). For the message consisting of one backslash, the
rendered line is `...,"msg":"\"` followed by the closing brace and
newline: the lone backslash escapes the closing quote, the string never
terminates, and the line is not one valid JSON object, contradicting the
claim for this event. -/
theorem claim_C1_cx :
    parseJsonLine (JSONFormatter.Format
      ⟨⟨2025, 1, 22, 12, 0, 0, 0⟩, .InfoLevel, "\\", some 34, []⟩) = none := by
  decide

/-- C1 (amended). For every log event whose message contains no backslash
and no control character (double quotes are fine — `escapeString` escapes
them), `JSONFormatter.Format` produces one JSON object terminated by a
newline whose keys are `time` (the RFC 3339 nanosecond-precision UTC
timestamp), `level` (the upper-case level name), `msg`, and `line`, and
the `line` key is always present, emitted as the integer 0 when the call
site is unknown and never omitted. -/
theorem claim_C1 (e : Entry)
    (hm : ∀ c ∈ e.message.data, c ≠ '\\' ∧ 32 ≤ c.toNat) :
    ∃ ps, parseJsonLine (JSONFormatter.Format e) = some ps ∧
      ps.map Prod.fst = ["time", "level", "line", "msg"] ∧
      ps.lookup "time" = some (JValue.str (rfc3339Nano e.time)) ∧
      ps.lookup "level" = some (JValue.str (toUpper e.level.levelString)) ∧
      ps.lookup "msg" = some (JValue.str e.message) ∧
      ps.lookup "line" = some (JValue.num ((e.caller.getD 0 : Nat) : Int)) ∧
      (e.caller = none → ps.lookup "line" = some (JValue.num 0)) := by
  refine ⟨_, format_parse e hm, rfl, rfl, rfl, rfl, rfl, ?_⟩
  intro hc
  rw [hc]
  rfl

/-- C1 (witness): the amended claim at a concrete event with an unknown
call site and a double quote in the message. -/
theorem claim_C1_w :
    ∃ ps, parseJsonLine (JSONFormatter.Format
        ⟨⟨2025, 1, 22, 12, 0, 0, 123450000⟩, .WarnLevel,
          "Application \"started\"", none, []⟩) = some ps ∧
      ps.map Prod.fst = ["time", "level", "line", "msg"] ∧
      ps.lookup "time"
        = some (JValue.str (rfc3339Nano ⟨2025, 1, 22, 12, 0, 0, 123450000⟩)) ∧
      ps.lookup "level"
        = some (JValue.str (toUpper LogLevel.WarnLevel.levelString)) ∧
      ps.lookup "msg" = some (JValue.str "Application \"started\"") ∧
      ps.lookup "line" = some (JValue.num ((Option.getD none 0 : Nat) : Int)) ∧
      ((none : Option Nat) = none → ps.lookup "line" = some (JValue.num 0)) :=
  claim_C1 _ (by decide)

/-- C2 (counterexample). At a concrete event carrying the structured
field `extra:"x"`, rendering then parsing yields exactly the keys
`time`, `level`, `line`, `msg` — the key `extra` is not among them, so
the round-trip does not preserve the extra field as the claim states. -/
theorem claim_C2_cx :
    parseJsonLine (JSONFormatter.Format
        ⟨⟨2025, 1, 22, 12, 0, 0, 0⟩, .InfoLevel, "hello", some 34,
          [("extra", "x")]⟩)
      = some [("time", JValue.str "2025-01-22T12:00:00Z"),
              ("level", JValue.str "INFO"),
              ("line", JValue.num 34),
              ("msg", JValue.str "hello")] ∧
    ("extra" : String) ∉ ["time", "level", "line", "msg"] := by
  constructor
  · decide
  · decide

/-- C2 (amended). For any event carrying a timestamp, a level, a message
free of backslashes and control characters (double quotes allowed), a
call-site line and the structured field `extra:"x"`, rendering with
`JSONFormatter.Format` and parsing the emitted line as JSON succeeds and
yields a map containing exactly the keys `time`, `level`, `line`, `msg`
with exactly the rendered event values; this formatter never emits
`entry.Data`, so `extra` is absent. -/
theorem claim_C2 (t : UTCTime) (lvl : LogLevel) (msg : String) (ln : Nat)
    (extras : List (String × String))
    (hm : ∀ c ∈ msg.data, c ≠ '\\' ∧ 32 ≤ c.toNat) :
    parseJsonLine (JSONFormatter.Format
        ⟨t, lvl, msg, some ln, ("extra", "x") :: extras⟩)
      = some [("time", JValue.str (rfc3339Nano t)),
              ("level", JValue.str (toUpper lvl.levelString)),
              ("line", JValue.num (ln : Int)),
              ("msg", JValue.str msg)] :=
  format_parse _ hm

/-- C2 (witness): the amended claim at a concrete event. -/
theorem claim_C2_w :
    parseJsonLine (JSONFormatter.Format
        ⟨⟨2026, 3, 4, 5, 6, 7, 89⟩, .ErrorLevel, "say \"hi\"", some 7,
          [("extra", "x")]⟩)
      = some [("time", JValue.str (rfc3339Nano ⟨2026, 3, 4, 5, 6, 7, 89⟩)),
              ("level", JValue.str (toUpper LogLevel.ErrorLevel.levelString)),
              ("line", JValue.num (7 : Int)),
              ("msg", JValue.str "say \"hi\"")] :=
  claim_C2 _ _ _ _ _ (by decide)

/-- C3 (counterexample). In the registry variant, `newLogger` rejects the
unrecognized level string `"bogus"` with an error instead of falling back
to `info`, so an unrecognized level *is* surfaced as an error on that
construction path. -/
theorem claim_C3_cx :
    (newLogger RegState.initial "svc" "bogus" "logs" true).2
      = Except.error "invalid log level bogus" := rfl

/-- C3 (amended). For the v1 constructor `NewLogger`, an unrecognized
minimum-level string is never surfaced as an error: construction succeeds,
the effective minimum level is `info`, a debug emit is dropped with no
side effect and an info emit is kept. The registry constructor
`newLogger`, by contrast, returns an `invalid log level` error for every
unrecognized level string. -/
theorem claim_C3 :
    (∀ (logDir logFile logLevel : String) (wef : Bool),
      ParseLevel logLevel = none →
      ∃ lg, NewLogger logDir logFile logLevel wef true = some lg ∧
        lg.level = .InfoLevel ∧
        (∀ (e : Entry) (mOk : Bool), e.level = .DebugLevel → lg.emit e mOk = lg) ∧
        (∀ (e : Entry) (mOk : Bool), e.level = .InfoLevel →
          (lg.emit e mOk).primary = lg.primary ++ [JSONFormatter.Format e])) ∧
    (∀ (st : RegState) (n lvl dir : String),
      ParseLevel lvl = none →
      (newLogger st n lvl dir true).2
        = Except.error ("invalid log level " ++ lvl)) := by
  constructor
  · intro logDir logFile logLevel wef hp
    refine ⟨_, rfl, ?_, ?_, ?_⟩
    · simp [NewLogger, hp]
    · intro e mOk he
      simp [LoggerV1.emit, levelEnabled, NewLogger, hp, he, LogLevel.num]
    · intro e mOk he
      simp [LoggerV1.emit, levelEnabled, NewLogger, hp, he, LogLevel.num,
        ErrorHook.Levels]
  · intro st n lvl dir hp
    simp [newLogger, hp]

/-- C3 (witness): both halves of the amended claim at the level string
`"bogus"`. -/
theorem claim_C3_w :
    (∃ lg, NewLogger "logs" "app.log" "bogus" true true = some lg ∧
      lg.level = .InfoLevel ∧
      (∀ (e : Entry) (mOk : Bool), e.level = .DebugLevel → lg.emit e mOk = lg) ∧
      (∀ (e : Entry) (mOk : Bool), e.level = .InfoLevel →
        (lg.emit e mOk).primary = lg.primary ++ [JSONFormatter.Format e])) ∧
    (newLogger RegState.initial "svc" "bogus" "logs" true).2
      = Except.error ("invalid log level " ++ "bogus") :=
  ⟨claim_C3.1 "logs" "app.log" "bogus" true (by decide),
   claim_C3.2 RegState.initial "svc" "bogus" "logs" (by decide)⟩

/-- C5 (confirmed). On an error-split-enabled logger whose level admits
the events: the error sink receives an emitted event iff its level is
ERROR or more severe (the hook's level set is exactly the levels at least
as severe as ERROR), and for one info emit followed by one error emit the
primary sink receives both lines while the error sink receives exactly
the error line. -/
theorem claim_C5 :
    (∀ (lg : LoggerV1) (e : Entry), lg.hook = true →
      levelEnabled lg.level e.level = true →
      (lg.emit e true).errorOut = lg.errorOut ++
        (if e.level ∈ ErrorHook.Levels then [JSONFormatter.Format e] else [])) ∧
    (∀ l : LogLevel, l ∈ ErrorHook.Levels ↔ l.num ≤ LogLevel.ErrorLevel.num) ∧
    (∀ (logDir logFile logLevel : String) (lg : LoggerV1) (e1 e2 : Entry),
      NewLogger logDir logFile logLevel true true = some lg →
      e1.level = .InfoLevel → e2.level = .ErrorLevel →
      levelEnabled lg.level .InfoLevel = true →
      ((lg.emit e1 true).emit e2 true).primary
          = [JSONFormatter.Format e1, JSONFormatter.Format e2] ∧
      ((lg.emit e1 true).emit e2 true).errorOut = [JSONFormatter.Format e2]) := by
  refine ⟨?_, ?_, ?_⟩
  · intro lg e hhook hen
    by_cases hmem : e.level ∈ ErrorHook.Levels
    · simp [LoggerV1.emit, hen, hhook, hmem]
    · simp [LoggerV1.emit, hen, hhook, hmem]
  · intro l; cases l <;> decide
  · intro logDir logFile logLevel lg e1 e2 hNL h1 h2 hen
    have hlg : lg = ⟨(ParseLevel logLevel).getD .InfoLevel, true,
        joinPath logDir logFile,
        some (joinPath logDir (buildErrorFilename logFile)), [], []⟩ := by
      simp [NewLogger] at hNL
      exact hNL.symm
    subst hlg
    simp only [levelEnabled, decide_eq_true_eq] at hen
    have hen1 : levelEnabled ((ParseLevel logLevel).getD .InfoLevel)
        .InfoLevel = true := by
      simp only [levelEnabled, decide_eq_true_eq]
      exact hen
    have hen2 : levelEnabled ((ParseLevel logLevel).getD .InfoLevel)
        .ErrorLevel = true := by
      simp only [levelEnabled, decide_eq_true_eq]
      exact Nat.le_trans (by decide) hen
    constructor
    · simp [LoggerV1.emit, h1, h2, hen1, hen2, ErrorHook.Levels]
    · simp [LoggerV1.emit, h1, h2, hen1, hen2, ErrorHook.Levels]

/-- C5 (witness): an info and an error emit on a concrete error-split
logger. -/
theorem claim_C5_w :
    (((⟨.InfoLevel, true, "logs/app.log", some "logs/app_error.log", [], []⟩ :
        LoggerV1).emit
          ⟨⟨2025, 1, 22, 12, 0, 0, 0⟩, .InfoLevel, "i", some 1, []⟩ true).emit
          ⟨⟨2025, 1, 22, 12, 0, 0, 0⟩, .ErrorLevel, "e", some 2, []⟩ true).primary
      = [JSONFormatter.Format ⟨⟨2025, 1, 22, 12, 0, 0, 0⟩, .InfoLevel, "i", some 1, []⟩,
         JSONFormatter.Format ⟨⟨2025, 1, 22, 12, 0, 0, 0⟩, .ErrorLevel, "e", some 2, []⟩] ∧
    (((⟨.InfoLevel, true, "logs/app.log", some "logs/app_error.log", [], []⟩ :
        LoggerV1).emit
          ⟨⟨2025, 1, 22, 12, 0, 0, 0⟩, .InfoLevel, "i", some 1, []⟩ true).emit
          ⟨⟨2025, 1, 22, 12, 0, 0, 0⟩, .ErrorLevel, "e", some 2, []⟩ true).errorOut
      = [JSONFormatter.Format ⟨⟨2025, 1, 22, 12, 0, 0, 0⟩, .ErrorLevel, "e", some 2, []⟩] :=
  claim_C5.2.2 "logs" "app.log" "info" _ _ _ rfl rfl rfl (by decide)

/-- C6 (confirmed). For an emitted event at ERROR level or above on an
error-split-enabled logger, the primary sink receives the rendered line
whatever the outcome of the mirror write, and a failed mirror write
leaves the error sink unchanged — the mirror failure never prevents or
rolls back the primary write. -/
theorem claim_C6 (lg : LoggerV1) (e : Entry) (mirrorOk : Bool)
    (hhook : lg.hook = true)
    (henabled : levelEnabled lg.level e.level = true)
    (herr : e.level.num ≤ LogLevel.ErrorLevel.num) :
    (lg.emit e mirrorOk).primary = lg.primary ++ [JSONFormatter.Format e] ∧
    (lg.emit e false).errorOut = lg.errorOut := by
  constructor
  · by_cases hmem : e.level ∈ ErrorHook.Levels <;> by_cases hmo : mirrorOk = true <;>
      simp [LoggerV1.emit, henabled, hhook, hmem, hmo]
  · simp [LoggerV1.emit, henabled]

/-- C6 (witness): a failing mirror write at a concrete error event still
appends the line to the primary sink. -/
theorem claim_C6_w :
    ((⟨.InfoLevel, true, "logs/app.log", some "logs/app_error.log",
        ["old"], []⟩ : LoggerV1).emit
          ⟨⟨2025, 1, 22, 12, 0, 0, 0⟩, .ErrorLevel, "boom", some 9, []⟩ false).primary
      = ["old"] ++ [JSONFormatter.Format
          ⟨⟨2025, 1, 22, 12, 0, 0, 0⟩, .ErrorLevel, "boom", some 9, []⟩] ∧
    ((⟨.InfoLevel, true, "logs/app.log", some "logs/app_error.log",
        ["old"], []⟩ : LoggerV1).emit
          ⟨⟨2025, 1, 22, 12, 0, 0, 0⟩, .ErrorLevel, "boom", some 9, []⟩ false).errorOut
      = [] :=
  claim_C6 _ _ false rfl (by decide) (by decide)

/-- One registry call never removes or replaces an existing entry. -/
theorem applyOp_lookup (op : RegOp) (st : RegState) (n : String) (lg : LoggerR)
    (h : st.entries.lookup n = some lg) :
    (applyOp st op).entries.lookup n = some lg := by
  cases op with
  | initLogger n' l d m o =>
    simp only [applyOp, InitializeLogger]
    cases hl : st.entries.lookup n' with
    | some _ => simpa using h
    | none =>
      by_cases hm : m = false
      · simp [hm, h]
      · simp only [if_neg hm]
        by_cases ho : o = false
        · simp [newLogger, ho, h]
        · cases hp : ParseLevel l with
          | none => simp [newLogger, ho, hp, h]
          | some lv =>
            have hne : n ≠ n' := by
              rintro rfl
              rw [h] at hl
              exact Option.noConfusion hl
            have hbeq : (n == n') = false := beq_eq_false_iff_ne.mpr hne
            simp [newLogger, ho, hp, List.lookup, hbeq, h]
  | initDefault l d m o =>
    simp only [applyOp, InitializeDefaultLogger]
    by_cases hd : st.onceDone
    · simp [hd, h]
    · by_cases hm : m = false
      · simp [hd, hm, h]
      · by_cases ho : o = false
        · simp [hd, hm, ho, newLogger, h]
        · cases hp : ParseLevel l with
          | none => simp [hd, hm, ho, hp, newLogger, h]
          | some lv => simp [hd, hm, ho, hp, newLogger, h]

/-- Once the once-gate is consumed, no registry call touches the default
slot or reopens the gate. -/
theorem applyOp_default (op : RegOp) (st : RegState) (hoD : st.onceDone = true) :
    (applyOp st op).defaultSlot = st.defaultSlot ∧
    (applyOp st op).onceDone = true := by
  cases op with
  | initLogger n' l d m o =>
    simp only [applyOp, InitializeLogger]
    cases hl : st.entries.lookup n' with
    | some _ => simp [hoD]
    | none =>
      by_cases hm : m = false
      · simp [hm, hoD]
      · simp only [if_neg hm]
        by_cases ho : o = false
        · simp [newLogger, ho, hoD]
        · cases hp : ParseLevel l with
          | none => simp [newLogger, ho, hp, hoD]
          | some lv => simp [newLogger, ho, hp, hoD]
  | initDefault l d m o =>
    simp [applyOp, InitializeDefaultLogger, hoD]

/-- Entry preservation across any sequence of registry calls. -/
theorem runOps_lookup (ops : List RegOp) : ∀ (st : RegState) (n : String)
    (lg : LoggerR), st.entries.lookup n = some lg →
    (runOps st ops).entries.lookup n = some lg := by
  induction ops with
  | nil => intro st n lg h; exact h
  | cons op ops ih =>
    intro st n lg h
    exact ih (applyOp st op) n lg (applyOp_lookup op st n lg h)

/-- Default-slot preservation across any sequence of registry calls, once
the gate is consumed. -/
theorem runOps_default (ops : List RegOp) : ∀ st : RegState,
    st.onceDone = true →
    (runOps st ops).defaultSlot = st.defaultSlot ∧
    (runOps st ops).onceDone = true := by
  induction ops with
  | nil => intro st h; exact ⟨rfl, h⟩
  | cons op ops ih =>
    intro st h
    obtain ⟨h1, h2⟩ := applyOp_default op st h
    obtain ⟨h3, h4⟩ := ih (applyOp st op) h2
    exact ⟨h3.trans h1, h4⟩

/-- C7 (confirmed). Registering a name that already exists returns
success and leaves the registry state entirely unchanged; consequently,
under any further sequence of registry calls an existing entry keeps
mapping to the same Logger instance, and once the default slot is
populated (which consumes the once gate) it keeps holding the same
instance — a given name maps to at most one Logger for the process
lifetime, including `default` with respect to the default slot. -/
theorem claim_C7 :
    (∀ (st : RegState) (n l d : String) (m o : Bool) (lg : LoggerR),
      st.entries.lookup n = some lg →
      InitializeLogger st n l d m o = (st, none)) ∧
    (∀ (ops : List RegOp) (st : RegState) (n : String) (lg : LoggerR),
      st.entries.lookup n = some lg →
      (runOps st ops).entries.lookup n = some lg) ∧
    (∀ (ops : List RegOp) (st : RegState) (dl : LoggerR),
      st.defaultSlot = some dl → st.onceDone = true →
      (runOps st ops).defaultSlot = some dl) := by
  refine ⟨?_, runOps_lookup, ?_⟩
  · intro st n l d m o lg h
    simp [InitializeLogger, h]
  · intro ops st dl h1 h2
    rw [(runOps_default ops st h2).1]
    exact h1

/-- C7 (witness): after registering `svc`, a second registration with a
different configuration returns success and changes nothing, and both the
entry and a populated default slot survive a further call sequence. -/
theorem claim_C7_w :
    (InitializeLogger
        (runOps RegState.initial [.initLogger "svc" "info" "logs" true true])
        "svc" "debug" "other" true true
      = (runOps RegState.initial [.initLogger "svc" "info" "logs" true true],
         none)) ∧
    ((runOps
        (runOps RegState.initial [.initLogger "svc" "info" "logs" true true,
          .initDefault "warn" "logs" true true])
        [.initLogger "svc" "error" "elsewhere" true true,
         .initDefault "debug" "logs" true true]).entries.lookup "svc"
      = some ⟨0, "svc", .InfoLevel⟩) ∧
    ((runOps
        (runOps RegState.initial [.initLogger "svc" "info" "logs" true true,
          .initDefault "warn" "logs" true true])
        [.initLogger "svc" "error" "elsewhere" true true,
         .initDefault "debug" "logs" true true]).defaultSlot
      = some ⟨1, "default", .WarnLevel⟩) :=
  ⟨claim_C7.1 _ "svc" "debug" "other" true true ⟨0, "svc", .InfoLevel⟩ (by decide),
   claim_C7.2.1 _ _ "svc" ⟨0, "svc", .InfoLevel⟩ (by decide),
   claim_C7.2.2 _ _ ⟨1, "default", .WarnLevel⟩ (by decide) (by decide)⟩

/-- C8 (counterexample). Starting from the empty registry, a first
`InitializeDefaultLogger` call whose construction fails (invalid level
`"bogus"`) returns that error, but a second call — made after the failure,
with a valid level — returns success (`nil`) even though the default slot
is still unset: the construction error is not propagated to every
caller. -/
theorem claim_C8_cx :
    (InitializeDefaultLogger RegState.initial "bogus" "logs" true true).2
      = some "invalid log level bogus" ∧
    (InitializeDefaultLogger
        (InitializeDefaultLogger RegState.initial "bogus" "logs" true true).1
        "info" "logs" true true).2 = none ∧
    (InitializeDefaultLogger
        (InitializeDefaultLogger RegState.initial "bogus" "logs" true true).1
        "info" "logs" true true).1.defaultSlot = none := by
  refine ⟨rfl, rfl, rfl⟩

/-- C8 (amended). Only the call that executes the once-guarded body
observes the construction outcome: every call made after the gate is
consumed returns success (`nil`) without doing anything, because the
local `err` of `InitializeDefaultLogger` is only assigned inside
`once.Do`. When the first-run construction fails, that first call returns
the error, the gate is nevertheless consumed, and the default slot stays
as it was — so the failure is never retried and later callers see success
with no default logger. -/
theorem claim_C8 :
    (∀ (st : RegState) (l d : String) (m o : Bool), st.onceDone = true →
      InitializeDefaultLogger st l d m o = (st, none)) ∧
    (∀ (st : RegState) (l d : String), st.onceDone = false →
      ParseLevel l = none →
      (InitializeDefaultLogger st l d true true).2
          = some ("invalid log level " ++ l) ∧
      (InitializeDefaultLogger st l d true true).1.onceDone = true ∧
      (InitializeDefaultLogger st l d true true).1.defaultSlot
          = st.defaultSlot) := by
  constructor
  · intro st l d m o h
    simp [InitializeDefaultLogger, h]
  · intro st l d h hp
    refine ⟨?_, ?_, ?_⟩ <;> simp [InitializeDefaultLogger, h, newLogger, hp]

/-- C8 (witness): the amended claim at the gate-consumed state left by a
failed first call, and at the failing first call itself. -/
theorem claim_C8_w :
    (InitializeDefaultLogger
        (InitializeDefaultLogger RegState.initial "bogus" "logs" true true).1
        "info" "logs" true true
      = ((InitializeDefaultLogger RegState.initial "bogus" "logs" true true).1,
         none)) ∧
    ((InitializeDefaultLogger RegState.initial "bogus" "logs" true true).2
        = some ("invalid log level " ++ "bogus") ∧
     (InitializeDefaultLogger RegState.initial "bogus" "logs" true true).1.onceDone
        = true ∧
     (InitializeDefaultLogger RegState.initial "bogus" "logs" true true).1.defaultSlot
        = RegState.initial.defaultSlot) :=
  ⟨claim_C8.1 _ "info" "logs" true true (by decide),
   claim_C8.2 RegState.initial "bogus" "logs" (by decide) (by decide)⟩

/-- C9 (confirmed). `GetLogger` returns the registered Logger for a name
when one exists; otherwise it returns the default Logger when the default
slot is set — the identical instance for every unregistered name — and
otherwise it panics (modelled as `none`), the `NotInitialized`
condition. -/
theorem claim_C9 :
    (∀ (st : RegState) (n : String) (lg : LoggerR),
      st.entries.lookup n = some lg → GetLogger st n = some lg) ∧
    (∀ (st : RegState) (n : String),
      st.entries.lookup n = none → GetLogger st n = st.defaultSlot) ∧
    (∀ (st : RegState) (n1 n2 : String),
      st.entries.lookup n1 = none → st.entries.lookup n2 = none →
      GetLogger st n1 = GetLogger st n2) ∧
    (∀ (st : RegState) (n : String),
      st.entries.lookup n = none → st.defaultSlot = none →
      GetLogger st n = none) := by
  have hbase : ∀ (st : RegState) (n : String),
      st.entries.lookup n = none → GetLogger st n = st.defaultSlot := by
    intro st n h
    cases hd : st.defaultSlot <;> simp [GetLogger, h, hd]
  refine ⟨?_, hbase, ?_, ?_⟩
  · intro st n lg h
    simp [GetLogger, h]
  · intro st n1 n2 h1 h2
    rw [hbase st n1 h1, hbase st n2 h2]
  · intro st n h1 h2
    rw [hbase st n h1, h2]

/-- C9 (witness): with the default initialized and `"unknown"` never
registered, two lookups of unregistered names return the same default
instance; with nothing initialized, the lookup panics (`none`). -/
theorem claim_C9_w :
    (GetLogger
        (runOps RegState.initial [.initDefault "info" "logs" true true])
        "unknown"
      = (runOps RegState.initial
          [.initDefault "info" "logs" true true]).defaultSlot) ∧
    (GetLogger
        (runOps RegState.initial [.initDefault "info" "logs" true true])
        "unknown"
      = GetLogger
          (runOps RegState.initial [.initDefault "info" "logs" true true])
          "also-unknown") ∧
    GetLogger RegState.initial "unknown" = none :=
  ⟨claim_C9.2.1 _ "unknown" (by decide),
   claim_C9.2.2.1 _ "unknown" "also-unknown" (by decide) (by decide),
   claim_C9.2.2.2 RegState.initial "unknown" (by decide) (by decide)⟩

/-- C10 (confirmed). When `InitializeLogger` fails for a new name because
the level string is invalid, the failure is not side-effect-free: the
logs directory has been created and the log file has been created/opened
before the level is validated, the error is returned, the name stays
absent from the registry, and a later call with a valid level still
succeeds and registers the name. -/
theorem claim_C10 (st : RegState) (n l d : String)
    (habs : st.entries.lookup n = none) (hlvl : ParseLevel l = none) :
    (InitializeLogger st n l d true true).2
        = some ("invalid log level " ++ l) ∧
    (InitializeLogger st n l d true true).1.dirs = d :: st.dirs ∧
    (InitializeLogger st n l d true true).1.files
        = (d ++ "/" ++ (n ++ ".log")) :: st.files ∧
    (InitializeLogger st n l d true true).1.entries = st.entries ∧
    (∀ (l2 : String) (lv : LogLevel), ParseLevel l2 = some lv →
      (InitializeLogger (InitializeLogger st n l d true true).1 n l2 d
          true true).2 = none ∧
      (InitializeLogger (InitializeLogger st n l d true true).1 n l2 d
          true true).1.entries.lookup n ≠ none) := by
  have hstep : InitializeLogger st n l d true true
      = (⟨st.entries, st.defaultSlot, st.onceDone, d :: st.dirs,
          (d ++ "/" ++ (n ++ ".log")) :: st.files, st.next⟩,
         some ("invalid log level " ++ l)) := by
    simp [InitializeLogger, habs, newLogger, joinPath, hlvl]
  refine ⟨by rw [hstep], by rw [hstep], by rw [hstep], by rw [hstep], ?_⟩
  intro l2 lv hp2
  rw [hstep]
  constructor
  · simp [InitializeLogger, habs, newLogger, joinPath, hp2]
  · simp [InitializeLogger, habs, newLogger, joinPath, hp2, List.lookup]

/-- C10 (witness): the failing registration of `svc` with level
`"bogus"` in the empty registry, followed by a succeeding one with
`"info"`. -/
theorem claim_C10_w :
    ((InitializeLogger RegState.initial "svc" "bogus" "logs" true true).2
        = some ("invalid log level " ++ "bogus") ∧
     (InitializeLogger RegState.initial "svc" "bogus" "logs" true true).1.dirs
        = "logs" :: RegState.initial.dirs ∧
     (InitializeLogger RegState.initial "svc" "bogus" "logs" true true).1.files
        = ("logs" ++ "/" ++ ("svc" ++ ".log")) :: RegState.initial.files ∧
     (InitializeLogger RegState.initial "svc" "bogus" "logs" true true).1.entries
        = RegState.initial.entries ∧
     (∀ (l2 : String) (lv : LogLevel), ParseLevel l2 = some lv →
       (InitializeLogger
           (InitializeLogger RegState.initial "svc" "bogus" "logs" true true).1
           "svc" l2 "logs" true true).2 = none ∧
       (InitializeLogger
           (InitializeLogger RegState.initial "svc" "bogus" "logs" true true).1
           "svc" l2 "logs" true true).1.entries.lookup "svc" ≠ none)) ∧
    ParseLevel "info" = some LogLevel.InfoLevel :=
  ⟨claim_C10 RegState.initial "svc" "bogus" "logs" (by decide) (by decide),
   by decide⟩
